import Mathlib

/-!
k8s-cluster-bundle: the bundle finder and the format converter.

A shallow embedding of `pkg/find/finder.go` and `pkg/converter/converter.go`.

* Go pointers to messages are values here; a pointer that may be nil where the
  source relies on the nil-safe generated getters (`GetSpec`, `GetInlined`, the
  bundle itself) is an `Option`.  Entries of repeated message fields are
  non-nil messages.
* A Go `map[K]V` is a `GoMap K V`: a key-unique association list read through
  `GoMap.get` (absent key = `none`, Go's nil) and written through `GoMap.set`
  (`m[k] = v`, replacing an existing binding).  The source never ranges over
  its maps, so only lookups are observable.
* `(T, error)` results are `Except`.
* The third-party codecs used by the converter (`jsonpb`, `proto` text format,
  `ghodss/yaml`) are parameters, collected in `converter.Codecs`.
-/

set_option autoImplicit false

/-! ## Go maps -/

/-- A Go map as a key-unique association list. -/
structure GoMap (K V : Type) where
  entries : List (K × V)
  deriving DecidableEq, Repr

namespace GoMap

variable {K V : Type} [DecidableEq K]

/-- The result of `make(map[K]V)`. -/
def empty : GoMap K V := ⟨[]⟩

/-- Replace the binding of `k` in an entry list, or append one. -/
def setEntries (k : K) (v : V) : List (K × V) → List (K × V)
  | [] => [(k, v)]
  | (k0, v0) :: rest => if k0 = k then (k, v) :: rest else (k0, v0) :: setEntries k v rest

/-- The assignment `m[k] = v`. -/
def set (m : GoMap K V) (k : K) (v : V) : GoMap K V := ⟨setEntries k v m.entries⟩

/-- Look a key up in an entry list. -/
def getEntries (k : K) : List (K × V) → Option V
  | [] => none
  | (k0, v0) :: rest => if k0 = k then some v0 else getEntries k rest

/-- The index expression `m[k]`; `none` is the zero value (nil) of a missing key. -/
def get (m : GoMap K V) (k : K) : Option V := getEntries k m.entries

end GoMap

/-! ## Messages (`structpb`, `bpb`, `core`) -/

namespace structpb

mutual
/-- A `structpb.Value`: the dynamically typed tree; a number is kept as its
float64 bit pattern. -/
inductive Value where
  | nullValue
  | numberValue (bits : Nat)
  | stringValue (s : String)
  | boolValue (b : Bool)
  | structValue (fields : Fields)
  | listValue (values : Values)
/-- The `fields` of a `structpb.Struct`. -/
inductive Fields where
  | nil
  | cons (key : String) (value : Value) (rest : Fields)
/-- The `values` of a `structpb.ListValue`. -/
inductive Values where
  | nil
  | cons (value : Value) (rest : Values)
end

deriving instance DecidableEq for Value, Fields, Values

/-- A `structpb.Struct`. -/
structure Struct where
  fields : Fields
  deriving DecidableEq

end structpb

namespace bpb

/-- A `bpb.NodeConfig`: its name, and its remaining fields (which the finder
never reads) as one value. -/
structure NodeConfig where
  name : String
  other : Nat
  deriving DecidableEq

/-- A `bpb.ClusterObject`. -/
structure ClusterObject where
  name : String
  inlined : Option structpb.Struct
  other : Nat
  deriving DecidableEq

/-- A `bpb.ClusterComponent`. -/
structure ClusterComponent where
  name : String
  clusterObjects : List ClusterObject
  other : Nat
  deriving DecidableEq

/-- A `bpb.ClusterBundleSpec`. -/
structure ClusterBundleSpec where
  nodeConfigs : List NodeConfig
  components : List ClusterComponent
  deriving DecidableEq

/-- A `bpb.ClusterBundle`. -/
structure ClusterBundle where
  spec : Option ClusterBundleSpec
  other : Nat
  deriving DecidableEq

/-- The getter `(*NodeConfig).GetName`. -/
def NodeConfig.GetName (nc : NodeConfig) : String := nc.name

/-- The getter `(*ClusterObject).GetName`. -/
def ClusterObject.GetName (co : ClusterObject) : String := co.name

/-- The getter `(*ClusterObject).GetInlined`. -/
def ClusterObject.GetInlined (co : ClusterObject) : Option structpb.Struct := co.inlined

/-- The getter `(*ClusterComponent).GetName`. -/
def ClusterComponent.GetName (ca : ClusterComponent) : String := ca.name

/-- The getter `(*ClusterComponent).GetClusterObjects`. -/
def ClusterComponent.GetClusterObjects (ca : ClusterComponent) : List ClusterObject :=
  ca.clusterObjects

/-- The nil-safe getter `(*ClusterBundle).GetSpec`. -/
def ClusterBundle.GetSpec : Option ClusterBundle → Option ClusterBundleSpec
  | none => none
  | some b => b.spec

/-- The nil-safe getter `(*ClusterBundleSpec).GetNodeConfigs`. -/
def ClusterBundleSpec.GetNodeConfigs : Option ClusterBundleSpec → List NodeConfig
  | none => []
  | some s => s.nodeConfigs

/-- The nil-safe getter `(*ClusterBundleSpec).GetComponents`. -/
def ClusterBundleSpec.GetComponents : Option ClusterBundleSpec → List ClusterComponent
  | none => []
  | some s => s.components

end bpb

namespace core

/-- The composite key `core.ClusterObjectKey{ComponentName, ObjectName}`. -/
structure ClusterObjectKey where
  componentName : String
  objectName : String
  deriving DecidableEq

end core

/-! ## `pkg/converter` -/

namespace converter

/-- Modelled from the spec: `converter.CloneBundle` is not in `converter.go`;
the spec has the view own "a private deep copy of the Bundle it was built
from".  On values a deep copy is the value itself. -/
def CloneBundle (b : Option bpb.ClusterBundle) : Option bpb.ClusterBundle := b

end converter

/-! ## `pkg/find` -/

namespace find

open bpb

/-- The errors `fmt.Errorf` builds in `finder.go`, each with the values its
message prints. -/
inductive FinderError where
  | emptyNodeConfigName (nc : NodeConfig)
  | emptyComponentName (ca : ClusterComponent)
  | emptyObjectName (co : ClusterObject) (compName : String)
  deriving DecidableEq

/-- The struct `BundleFinder`. -/
structure BundleFinder where
  bundle : Option ClusterBundle
  nodeLookup : GoMap String NodeConfig
  compLookup : GoMap String ClusterComponent
  compObjLookup : GoMap core.ClusterObjectKey ClusterObject
  deriving DecidableEq

/-- The loop over `b.GetSpec().GetNodeConfigs()` in `NewBundleFinder`. -/
def nodeConfigsLoop :
    List NodeConfig → GoMap String NodeConfig → Except FinderError (GoMap String NodeConfig)
  | [], nodeConfigs => .ok nodeConfigs
  | nc :: rest, nodeConfigs =>
    let n := nc.GetName
    if n = "" then .error (.emptyNodeConfigName nc)
    else nodeConfigsLoop rest (nodeConfigs.set n nc)

/-- The inner loop over `ca.GetClusterObjects()` in `NewBundleFinder`, for the
component named `n`. -/
def clusterObjectsLoop (n : String) :
    List ClusterObject → GoMap core.ClusterObjectKey ClusterObject →
      Except FinderError (GoMap core.ClusterObjectKey ClusterObject)
  | [], compObjLookup => .ok compObjLookup
  | co :: rest, compObjLookup =>
    let con := co.GetName
    if con = "" then .error (.emptyObjectName co n)
    else clusterObjectsLoop n rest (compObjLookup.set ⟨n, con⟩ co)

/-- The loop over `b.GetSpec().GetComponents()` in `NewBundleFinder`. -/
def componentsLoop :
    List ClusterComponent → GoMap String ClusterComponent →
      GoMap core.ClusterObjectKey ClusterObject →
      Except FinderError (GoMap String ClusterComponent × GoMap core.ClusterObjectKey ClusterObject)
  | [], compConfigs, compObjLookup => .ok (compConfigs, compObjLookup)
  | ca :: rest, compConfigs, compObjLookup =>
    let n := ca.GetName
    if n = "" then .error (.emptyComponentName ca)
    else
      let compConfigs := compConfigs.set n ca
      match clusterObjectsLoop n ca.GetClusterObjects compObjLookup with
      | .error e => .error e
      | .ok compObjLookup => componentsLoop rest compConfigs compObjLookup

/-- The function `NewBundleFinder`. -/
def NewBundleFinder (b : Option ClusterBundle) : Except FinderError BundleFinder :=
  let b := converter.CloneBundle b
  match nodeConfigsLoop (ClusterBundleSpec.GetNodeConfigs (ClusterBundle.GetSpec b))
      GoMap.empty with
  | .error e => .error e
  | .ok nodeConfigs =>
    match componentsLoop (ClusterBundleSpec.GetComponents (ClusterBundle.GetSpec b))
        GoMap.empty GoMap.empty with
    | .error e => .error e
    | .ok (compConfigs, compObjLookup) =>
      .ok { bundle := b, nodeLookup := nodeConfigs, compLookup := compConfigs,
            compObjLookup := compObjLookup }

/-- The method `BundleFinder.ClusterComponent`. -/
def BundleFinder.ClusterComponent (b : BundleFinder) (name : String) :
    Option bpb.ClusterComponent :=
  b.compLookup.get name

/-- The method `BundleFinder.NodeConfig`. -/
def BundleFinder.NodeConfig (b : BundleFinder) (name : String) : Option bpb.NodeConfig :=
  b.nodeLookup.get name

/-- The method `BundleFinder.ClusterComponentObject`. -/
def BundleFinder.ClusterComponentObject (b : BundleFinder) (compName : String)
    (objName : String) : Option bpb.ClusterObject :=
  b.compObjLookup.get ⟨compName, objName⟩

/-- The struct `ComponentImage`. -/
structure ComponentImage where
  key : core.ClusterObjectKey
  objectPath : List String
  image : String
  deriving DecidableEq

/-- The method `BundleFinder.findImagesInKubeObj`: it returns its nil slice. -/
def BundleFinder.findImagesInKubeObj (_b : BundleFinder) (_s : structpb.Struct) :
    Except FinderError (List ComponentImage) :=
  let images : List ComponentImage := []
  .ok images

/-- The inner loop of `ComponentImages` over `ca.GetClusterObjects()`. -/
def BundleFinder.imagesObjectsLoop (b : BundleFinder) (compName : String) :
    List bpb.ClusterObject → List ComponentImage → Except FinderError (List ComponentImage)
  | [], images => .ok images
  | co :: rest, images =>
    let objName := co.GetName
    if objName = "" then .error (.emptyObjectName co compName)
    else
      match co.GetInlined with
      | none => b.imagesObjectsLoop compName rest images
      | some obj =>
        match b.findImagesInKubeObj obj with
        | .error err => .error err
        | .ok part => b.imagesObjectsLoop compName rest (images ++ part)

/-- The outer loop of `ComponentImages` over `b.bundle.GetSpec().GetComponents()`. -/
def BundleFinder.imagesComponentsLoop (b : BundleFinder) :
    List bpb.ClusterComponent → List ComponentImage → Except FinderError (List ComponentImage)
  | [], images => .ok images
  | ca :: rest, images =>
    let compName := ca.GetName
    if compName = "" then .error (.emptyComponentName ca)
    else
      match b.imagesObjectsLoop compName ca.GetClusterObjects images with
      | .error err => .error err
      | .ok images => b.imagesComponentsLoop rest images

/-- The method `BundleFinder.ComponentImages`. -/
def BundleFinder.ComponentImages (b : BundleFinder) : Except FinderError (List ComponentImage) :=
  b.imagesComponentsLoop (ClusterBundleSpec.GetComponents (ClusterBundle.GetSpec b.bundle)) []

end find

/-! ## `pkg/converter`: the conversions -/

namespace converter

/-- A Go `[]byte`. -/
abbrev Bytes := List UInt8

/-- The options of a `jsonpb.Marshaler`. -/
structure Marshaler where
  EnumsAsInts : Bool
  EmitDefaults : Bool
  Indent : String
  OrigName : Bool
  deriving DecidableEq

/-- The zero value `jsonpb.Marshaler{}`. -/
def Marshaler.zero : Marshaler := ⟨false, false, "", false⟩

/-- The options of a `jsonpb.Unmarshaler`. -/
structure Unmarshaler where
  AllowUnknownFields : Bool
  deriving DecidableEq

/-- The third-party functions `converter.go` calls, over the type `M` of
`proto.Message` values; a Go `error` is its message.  The two unmarshalers
return the message they filled in. -/
structure Codecs (M : Type) where
  Clone : M → M
  UnmarshalText : Bytes → M → Except String M
  MarshalText : M → Except String Bytes
  jsonpbMarshal : Marshaler → M → Except String Bytes
  jsonpbUnmarshal : Unmarshaler → Bytes → M → Except String M
  JSONToYAML : Bytes → Except String Bytes
  YAMLToJSON : Bytes → Except String Bytes

/-- The struct `Converter`. -/
structure Converter (M : Type) where
  Msg : M

variable {M : Type}

/-- The method `Converter.TextProtoToProto`. -/
def Converter.TextProtoToProto (lib : Codecs M) (b : Converter M) (textpb : Bytes) :
    Except String M :=
  let bun := lib.Clone b.Msg
  match lib.UnmarshalText textpb bun with
  | .error err => .error ("error unmarshaling bundle: " ++ err)
  | .ok bun => .ok bun

/-- The method `Converter.ProtoToTextProto`. -/
def Converter.ProtoToTextProto (lib : Codecs M) (_b : Converter M) (msg : M) :
    Except String Bytes :=
  match lib.MarshalText msg with
  | .error err => .error ("error unmarshaling bundle: " ++ err)
  | .ok buf => .ok buf

/-- The function `ProtoToJSON`. -/
def ProtoToJSON (lib : Codecs M) (b : M) : Except String Bytes :=
  match lib.jsonpbMarshal Marshaler.zero b with
  | .error err => .error err
  | .ok buf => .ok buf

/-- The function `ProtoToYAML`. -/
def ProtoToYAML (lib : Codecs M) (b : M) : Except String Bytes :=
  match ProtoToJSON lib b with
  | .error err => .error err
  | .ok buf => lib.JSONToYAML buf

/-- The method `Converter.ProtoToYAML`. -/
def Converter.ProtoToYAML (lib : Codecs M) (_b : Converter M) (bun : M) : Except String Bytes :=
  converter.ProtoToYAML lib bun

/-- The method `Converter.ProtoToJSON`. -/
def Converter.ProtoToJSON (lib : Codecs M) (_b : Converter M) (bun : M) : Except String Bytes :=
  converter.ProtoToJSON lib bun

/-- The method `Converter.JSONToProto`. -/
def Converter.JSONToProto (lib : Codecs M) (b : Converter M) (contents : Bytes) :
    Except String M :=
  let bun := lib.Clone b.Msg
  let umj : Unmarshaler := ⟨false⟩
  match lib.jsonpbUnmarshal umj contents bun with
  | .error err => .error err
  | .ok bun => .ok bun

/-- The method `Converter.YAMLToProto`. -/
def Converter.YAMLToProto (lib : Codecs M) (b : Converter M) (contents : Bytes) :
    Except String M :=
  match lib.YAMLToJSON contents with
  | .error err => .error err
  | .ok js => b.JSONToProto lib js

/-- The spec's `fromYAML`: "converts YAML syntax to JSON syntax, then pivots
through `fromJSON`", failing when the input is not valid YAML or the pivot
fails. -/
def fromYAMLPivot (lib : Codecs M) (b : Converter M) (contents : Bytes) : Except String M :=
  lib.YAMLToJSON contents >>= fun js => b.JSONToProto lib js

/-- The spec's `toYAML`: "pivots through `toJSON` then converts JSON to YAML
syntax". -/
def toYAMLPivot (lib : Codecs M) (b : Converter M) (v : M) : Except String Bytes :=
  b.ProtoToJSON lib v >>= fun buf => lib.JSONToYAML buf

/-- A small instance of the codecs over one-byte "messages": the JSON form of a
message is the byte itself, a YAML document is the JSON bytes behind a marker
byte `35`, and the empty input is not valid YAML. -/
def toyCodecs : Codecs UInt8 where
  Clone := fun m => m
  UnmarshalText := fun bs _ =>
    match bs with
    | [x] => .ok x
    | _ => .error "text"
  MarshalText := fun m => .ok [m]
  jsonpbMarshal := fun _ m => if m = 0 then .error "marshal" else .ok [m]
  jsonpbUnmarshal := fun _ bs _ =>
    match bs with
    | [x] => .ok x
    | _ => .error "json"
  JSONToYAML := fun bs => .ok (35 :: bs)
  YAMLToJSON := fun bs =>
    match bs with
    | 35 :: rest => .ok rest
    | _ => .error "yaml"

end converter

/-! ## Notions used by the statements -/

/-- The last entry of a sequence that satisfies `p`, if there is one. -/
def lastWhere {α : Type} (p : α → Bool) (l : List α) : Option α :=
  (l.filter p).getLast?

namespace find

open bpb

/-- The NodeConfigs of a bundle, as `NewBundleFinder` reads them:
`b.GetSpec().GetNodeConfigs()`. -/
def nodeConfigsOf (b : Option ClusterBundle) : List NodeConfig :=
  ClusterBundleSpec.GetNodeConfigs (ClusterBundle.GetSpec b)

/-- The Components of a bundle, as `NewBundleFinder` reads them:
`b.GetSpec().GetComponents()`. -/
def componentsOf (b : Option ClusterBundle) : List ClusterComponent :=
  ClusterBundleSpec.GetComponents (ClusterBundle.GetSpec b)

/-- Some NodeConfig, Component or ClusterObject of the bundle has the empty
name. -/
def HasEmptyName (b : Option ClusterBundle) : Prop :=
  (∃ nc ∈ nodeConfigsOf b, nc.GetName = "") ∨
  (∃ ca ∈ componentsOf b, ca.GetName = "") ∨
  (∃ ca ∈ componentsOf b, ∃ co ∈ ca.GetClusterObjects, co.GetName = "")

instance (b : Option ClusterBundle) : Decidable (HasEmptyName b) := by
  unfold HasEmptyName
  infer_instance

/-- Every name the loops of `NewBundleFinder` read is non-empty. -/
def AllNamesNonEmpty (b : Option ClusterBundle) : Prop :=
  (∀ nc ∈ nodeConfigsOf b, nc.GetName ≠ "") ∧
  (∀ ca ∈ componentsOf b, ca.GetName ≠ "" ∧ ∀ co ∈ ca.GetClusterObjects, co.GetName ≠ "")

/-- Two NodeConfigs share a name, or two Components share a name, or two
ClusterObjects of one Component share a name. -/
def HasDuplicateName (b : Option ClusterBundle) : Prop :=
  ¬ ((nodeConfigsOf b).map NodeConfig.GetName).Nodup ∨
  ¬ ((componentsOf b).map ClusterComponent.GetName).Nodup ∨
  (∃ ca ∈ componentsOf b, ¬ (ca.GetClusterObjects.map ClusterObject.GetName).Nodup)

instance (b : Option ClusterBundle) : Decidable (HasDuplicateName b) := by
  unfold HasDuplicateName
  infer_instance

/-- A bundle with two NodeConfigs named `n1`, two Components named `A` around a
Component `B`, and the object name `o` under both `A` and `B`. -/
def duplicateBundle : Option ClusterBundle :=
  some ⟨some ⟨[⟨"n1", 0⟩, ⟨"n1", 1⟩],
    [⟨"A", [⟨"o", none, 0⟩], 0⟩, ⟨"B", [⟨"o", none, 1⟩], 1⟩, ⟨"A", [⟨"p", none, 2⟩], 2⟩]⟩, 0⟩

/-- The view `NewBundleFinder` builds over `duplicateBundle`, table by table. -/
def duplicateFinder : BundleFinder :=
  ⟨duplicateBundle,
   ⟨[("n1", ⟨"n1", 1⟩)]⟩,
   ⟨[("A", ⟨"A", [⟨"p", none, 2⟩], 2⟩), ("B", ⟨"B", [⟨"o", none, 1⟩], 1⟩)]⟩,
   ⟨[(⟨"A", "o"⟩, ⟨"o", none, 0⟩), (⟨"B", "o"⟩, ⟨"o", none, 1⟩), (⟨"A", "p"⟩, ⟨"p", none, 2⟩)]⟩⟩

/-- The spec's example bundle, with an inlined payload on its object. -/
def exampleBundle : Option ClusterBundle :=
  some ⟨some ⟨[⟨"n1", 0⟩],
    [⟨"c1", [⟨"o1", some ⟨.cons "kind" (.stringValue "Pod") .nil⟩, 0⟩], 0⟩]⟩, 0⟩

/-- The view `NewBundleFinder` builds over `exampleBundle`. -/
def exampleFinder : BundleFinder :=
  ⟨exampleBundle,
   ⟨[("n1", ⟨"n1", 0⟩)]⟩,
   ⟨[("c1", ⟨"c1", [⟨"o1", some ⟨.cons "kind" (.stringValue "Pod") .nil⟩, 0⟩], 0⟩)]⟩,
   ⟨[(⟨"c1", "o1"⟩, ⟨"o1", some ⟨.cons "kind" (.stringValue "Pod") .nil⟩, 0⟩)]⟩⟩

/-- A bundle whose one Component `c1` has a sole ClusterObject, with the empty
name. -/
def emptyObjectNameBundle : Option ClusterBundle :=
  some ⟨some ⟨[⟨"n1", 0⟩], [⟨"c1", [⟨"", none, 0⟩], 0⟩]⟩, 0⟩

end find

/-! ## Lemmas on maps and sequences -/

namespace GoMap

variable {K V : Type} [DecidableEq K]

theorem getEntries_setEntries (k k' : K) (v : V) (l : List (K × V)) :
    getEntries k' (setEntries k v l) = if k = k' then some v else getEntries k' l := by
  induction l with
  | nil => simp [setEntries, getEntries]
  | cons hd tl ih =>
    obtain ⟨k0, v0⟩ := hd
    by_cases h0 : k0 = k
    · subst h0
      by_cases h1 : k0 = k' <;> simp [setEntries, getEntries, h1]
    · by_cases h1 : k0 = k'
      · subst h1
        have h2 : ¬ k = k0 := fun h => h0 h.symm
        simp [setEntries, getEntries, h0, h2]
      · simp [setEntries, getEntries, h0, h1, ih]

theorem get_set (m : GoMap K V) (k k' : K) (v : V) :
    (m.set k v).get k' = if k = k' then some v else m.get k' :=
  getEntries_setEntries k k' v m.entries

theorem get_empty (k : K) : (empty : GoMap K V).get k = none := rfl

end GoMap

theorem lastWhere_nil {α : Type} (p : α → Bool) : lastWhere p [] = none := rfl

theorem lastWhere_cons {α : Type} (p : α → Bool) (x : α) (l : List α) :
    lastWhere p (x :: l) = (lastWhere p l).or (if p x then some x else none) := by
  unfold lastWhere
  by_cases hx : p x = true
  · simp only [List.filter_cons, hx, if_true, List.getLast?_cons]
    cases (List.filter p l).getLast? <;> simp
  · simp [List.filter_cons, hx]

theorem lastWhere_append {α : Type} (p : α → Bool) (l₁ l₂ : List α) :
    lastWhere p (l₁ ++ l₂) = (lastWhere p l₂).or (lastWhere p l₁) := by
  unfold lastWhere
  rw [List.filter_append, List.getLast?_append]

theorem lastWhere_some {α : Type} {p : α → Bool} {l : List α} {x : α}
    (h : lastWhere p l = some x) : x ∈ l ∧ p x = true :=
  List.mem_filter.mp (List.mem_of_getLast?_eq_some h)

theorem lastWhere_eq_none_iff {α : Type} (p : α → Bool) (l : List α) :
    lastWhere p l = none ↔ ∀ x ∈ l, p x = false := by
  unfold lastWhere
  rw [List.getLast?_eq_none_iff, List.filter_eq_nil_iff]
  simp

theorem lastWhere_of_unique {α : Type} {p : α → Bool} {l : List α} {x : α}
    (hx : x ∈ l) (hp : p x = true) (huniq : ∀ y ∈ l, p y = true → y = x) :
    lastWhere p l = some x := by
  cases h : lastWhere p l with
  | none =>
    have := (lastWhere_eq_none_iff p l).mp h x hx
    simp [this] at hp
  | some y =>
    have hy := lastWhere_some h
    rw [huniq y hy.1 hy.2]

/-! ## Lemmas on the loops of `NewBundleFinder` -/

namespace find

open bpb

theorem nodeConfigsLoop_ok_iff (l : List NodeConfig) (m : GoMap String NodeConfig) :
    (∃ m', nodeConfigsLoop l m = .ok m') ↔ ∀ nc ∈ l, nc.GetName ≠ "" := by
  induction l generalizing m with
  | nil => simp [nodeConfigsLoop]
  | cons nc rest ih =>
    by_cases h : nc.GetName = ""
    · simp [nodeConfigsLoop, h]
    · simp [nodeConfigsLoop, h, ih]

theorem nodeConfigsLoop_get {l : List NodeConfig} {m m' : GoMap String NodeConfig}
    (h : nodeConfigsLoop l m = .ok m') (name : String) :
    m'.get name = (lastWhere (fun nc => decide (nc.GetName = name)) l).or (m.get name) := by
  induction l generalizing m with
  | nil =>
    simp only [nodeConfigsLoop, Except.ok.injEq] at h
    simp [h, lastWhere_nil]
  | cons nc rest ih =>
    by_cases hn : nc.GetName = ""
    · simp [nodeConfigsLoop, hn] at h
    · simp only [nodeConfigsLoop, hn, if_false] at h
      rw [ih h, lastWhere_cons, GoMap.get_set]
      by_cases hk : nc.GetName = name
      · simp [hk]
        cases lastWhere (fun nc => decide (nc.GetName = name)) rest <;> simp
      · simp [hk]

theorem clusterObjectsLoop_ok_iff (n : String) (l : List ClusterObject)
    (m : GoMap core.ClusterObjectKey ClusterObject) :
    (∃ m', clusterObjectsLoop n l m = .ok m') ↔ ∀ co ∈ l, co.GetName ≠ "" := by
  induction l generalizing m with
  | nil => simp [clusterObjectsLoop]
  | cons co rest ih =>
    by_cases h : co.GetName = ""
    · simp [clusterObjectsLoop, h]
    · simp [clusterObjectsLoop, h, ih]

theorem clusterObjectsLoop_get {n : String} {l : List ClusterObject}
    {m m' : GoMap core.ClusterObjectKey ClusterObject}
    (h : clusterObjectsLoop n l m = .ok m') (c o : String) :
    m'.get ⟨c, o⟩ =
      if c = n then (lastWhere (fun co => decide (co.GetName = o)) l).or (m.get ⟨c, o⟩)
      else m.get ⟨c, o⟩ := by
  induction l generalizing m with
  | nil =>
    simp only [clusterObjectsLoop, Except.ok.injEq] at h
    simp [h, lastWhere_nil]
  | cons co rest ih =>
    by_cases hn : co.GetName = ""
    · simp [clusterObjectsLoop, hn] at h
    · simp only [clusterObjectsLoop, hn, if_false] at h
      rw [ih h, lastWhere_cons, GoMap.get_set]
      by_cases hc : c = n
      · subst hc
        by_cases hk : co.GetName = o
        · simp [hk]
          cases lastWhere (fun co => decide (co.GetName = o)) rest <;> simp
        · simp [hk]
      · have hc' : ¬ n = c := fun e => hc e.symm
        simp [hc, hc']

theorem componentsLoop_ok_iff (l : List ClusterComponent) (cm : GoMap String ClusterComponent)
    (om : GoMap core.ClusterObjectKey ClusterObject) :
    (∃ r, componentsLoop l cm om = .ok r) ↔
      ∀ ca ∈ l, ca.GetName ≠ "" ∧ ∀ co ∈ ca.GetClusterObjects, co.GetName ≠ "" := by
  induction l generalizing cm om with
  | nil => simp [componentsLoop]
  | cons ca rest ih =>
    by_cases h : ca.GetName = ""
    · simp [componentsLoop, h]
    · cases hobj : clusterObjectsLoop ca.GetName ca.GetClusterObjects om with
      | error e =>
        have hno : ¬ ∀ co ∈ ca.GetClusterObjects, co.GetName ≠ "" := fun hall =>
          by
            obtain ⟨m', hm'⟩ := (clusterObjectsLoop_ok_iff ca.GetName _ om).mpr hall
            rw [hobj] at hm'
            cases hm'
        simp only [componentsLoop, h, if_false, hobj, List.mem_cons, forall_eq_or_imp]
        constructor
        · rintro ⟨r, hr⟩
          cases hr
        · rintro ⟨⟨_, hall⟩, _⟩
          exact absurd hall hno
      | ok om' =>
        have hall : ∀ co ∈ ca.GetClusterObjects, co.GetName ≠ "" :=
          (clusterObjectsLoop_ok_iff ca.GetName _ om).mp ⟨om', hobj⟩
        simp only [componentsLoop, h, if_false, hobj, List.mem_cons, forall_eq_or_imp, ih]
        constructor
        · intro hrest
          exact ⟨⟨h, hall⟩, hrest⟩
        · rintro ⟨_, hrest⟩
          exact hrest

theorem componentsLoop_getComp {l : List ClusterComponent} {cm : GoMap String ClusterComponent}
    {om : GoMap core.ClusterObjectKey ClusterObject}
    {r : GoMap String ClusterComponent × GoMap core.ClusterObjectKey ClusterObject}
    (h : componentsLoop l cm om = .ok r) (name : String) :
    r.1.get name = (lastWhere (fun ca => decide (ca.GetName = name)) l).or (cm.get name) := by
  induction l generalizing cm om with
  | nil =>
    simp only [componentsLoop, Except.ok.injEq] at h
    simp [← h, lastWhere_nil]
  | cons ca rest ih =>
    by_cases hn : ca.GetName = ""
    · simp [componentsLoop, hn] at h
    · cases hobj : clusterObjectsLoop ca.GetName ca.GetClusterObjects om with
      | error e => simp [componentsLoop, hn, hobj] at h
      | ok om' =>
        simp only [componentsLoop, hn, if_false, hobj] at h
        rw [ih h, lastWhere_cons, GoMap.get_set]
        by_cases hk : ca.GetName = name
        · simp [hk]
          cases lastWhere (fun ca => decide (ca.GetName = name)) rest <;> simp
        · simp [hk]

theorem componentsLoop_getObj {l : List ClusterComponent} {cm : GoMap String ClusterComponent}
    {om : GoMap core.ClusterObjectKey ClusterObject}
    {r : GoMap String ClusterComponent × GoMap core.ClusterObjectKey ClusterObject}
    (h : componentsLoop l cm om = .ok r) (c o : String) :
    r.2.get ⟨c, o⟩ =
      (lastWhere (fun co => decide (co.GetName = o))
        ((l.filter (fun ca => decide (ca.GetName = c))).flatMap
          ClusterComponent.GetClusterObjects)).or (om.get ⟨c, o⟩) := by
  induction l generalizing cm om with
  | nil =>
    simp only [componentsLoop, Except.ok.injEq] at h
    simp [← h, lastWhere_nil]
  | cons ca rest ih =>
    by_cases hn : ca.GetName = ""
    · simp [componentsLoop, hn] at h
    · cases hobj : clusterObjectsLoop ca.GetName ca.GetClusterObjects om with
      | error e => simp [componentsLoop, hn, hobj] at h
      | ok om' =>
        simp only [componentsLoop, hn, if_false, hobj] at h
        rw [ih h, clusterObjectsLoop_get hobj]
        by_cases hk : ca.GetName = c
        · subst hk
          simp only [List.filter_cons, decide_True, if_true, List.flatMap_cons,
            lastWhere_append]
          cases lastWhere (fun co => decide (co.GetName = o))
            ((rest.filter (fun ca' => decide (ca'.GetName = ca.GetName))).flatMap
              ClusterComponent.GetClusterObjects) <;> simp
        · have hk' : ¬ c = ca.GetName := fun e => hk e.symm
          simp [List.filter_cons, hk, hk']

end find

/-! ## Lemmas on `NewBundleFinder` and `ComponentImages` -/

namespace find

open bpb

theorem NewBundleFinder_ok_iff (b : Option ClusterBundle) (f : BundleFinder) :
    NewBundleFinder b = .ok f ↔
      ∃ nm cm om, nodeConfigsLoop (nodeConfigsOf b) GoMap.empty = .ok nm ∧
        componentsLoop (componentsOf b) GoMap.empty GoMap.empty = .ok (cm, om) ∧
        f = ⟨b, nm, cm, om⟩ := by
  unfold NewBundleFinder nodeConfigsOf componentsOf converter.CloneBundle
  cases h1 : nodeConfigsLoop (ClusterBundleSpec.GetNodeConfigs (ClusterBundle.GetSpec b))
      GoMap.empty with
  | error e => simp [h1]
  | ok nm =>
    cases h2 : componentsLoop (ClusterBundleSpec.GetComponents (ClusterBundle.GetSpec b))
        GoMap.empty GoMap.empty with
    | error e => simp [h1, h2]
    | ok r =>
      obtain ⟨cm, om⟩ := r
      simp only [h1, h2, Except.ok.injEq, Prod.mk.injEq]
      constructor
      · intro h
        exact ⟨nm, cm, om, rfl, ⟨rfl, rfl⟩, h.symm⟩
      · rintro ⟨nm1, cm1, om1, h3, ⟨h4, h5⟩, hf⟩
        subst h3 h4 h5
        exact hf.symm

theorem allNamesNonEmpty_iff (b : Option ClusterBundle) :
    AllNamesNonEmpty b ↔ ¬ HasEmptyName b := by
  unfold AllNamesNonEmpty HasEmptyName
  constructor
  · rintro ⟨hn, hc⟩ (⟨nc, hnc, he⟩ | ⟨ca, hca, he⟩ | ⟨ca, hca, co, hco, he⟩)
    · exact hn nc hnc he
    · exact (hc ca hca).1 he
    · exact (hc ca hca).2 co hco he
  · intro h
    refine ⟨fun nc hnc he => h (Or.inl ⟨nc, hnc, he⟩), fun ca hca => ⟨fun he => ?_, fun co hco he => ?_⟩⟩
    · exact h (Or.inr (Or.inl ⟨ca, hca, he⟩))
    · exact h (Or.inr (Or.inr ⟨ca, hca, co, hco, he⟩))

theorem NewBundleFinder_succeeds_iff (b : Option ClusterBundle) :
    (∃ f, NewBundleFinder b = .ok f) ↔ AllNamesNonEmpty b := by
  unfold AllNamesNonEmpty
  rw [← nodeConfigsLoop_ok_iff _ GoMap.empty, ← componentsLoop_ok_iff _ GoMap.empty GoMap.empty]
  constructor
  · rintro ⟨f, hf⟩
    obtain ⟨nm, cm, om, h1, h2, _⟩ := (NewBundleFinder_ok_iff b f).mp hf
    exact ⟨⟨nm, h1⟩, ⟨(cm, om), h2⟩⟩
  · rintro ⟨⟨nm, h1⟩, ⟨⟨cm, om⟩, h2⟩⟩
    exact ⟨_, (NewBundleFinder_ok_iff b _).mpr ⟨nm, cm, om, h1, h2, rfl⟩⟩

theorem NewBundleFinder_fails_iff (b : Option ClusterBundle) :
    (∃ e, NewBundleFinder b = .error e) ↔ ¬ AllNamesNonEmpty b := by
  rw [← NewBundleFinder_succeeds_iff]
  cases h : NewBundleFinder b with
  | error e => simp
  | ok f => simp

theorem imagesObjectsLoop_ok (b : BundleFinder) (compName : String) (l : List ClusterObject)
    (images : List ComponentImage) (h : ∀ co ∈ l, co.GetName ≠ "") :
    b.imagesObjectsLoop compName l images = .ok images := by
  induction l with
  | nil => rfl
  | cons co rest ih =>
    have hco : co.GetName ≠ "" := h co (List.mem_cons_self _ _)
    have hrest := ih (fun x hx => h x (List.mem_cons_of_mem _ hx))
    cases hi : co.GetInlined with
    | none => simp [BundleFinder.imagesObjectsLoop, hco, hi, hrest]
    | some obj =>
      simp [BundleFinder.imagesObjectsLoop, hco, hi, BundleFinder.findImagesInKubeObj, hrest]

theorem imagesObjectsLoop_error (b : BundleFinder) (compName : String) (l : List ClusterObject)
    (images : List ComponentImage) (h : ∃ co ∈ l, co.GetName = "") :
    ∃ e, b.imagesObjectsLoop compName l images = .error e := by
  induction l with
  | nil => simp at h
  | cons co rest ih =>
    by_cases hco : co.GetName = ""
    · exact ⟨.emptyObjectName co compName, by simp [BundleFinder.imagesObjectsLoop, hco]⟩
    · have hrest : ∃ co ∈ rest, co.GetName = "" := by
        obtain ⟨x, hx, hxe⟩ := h
        rcases List.mem_cons.mp hx with rfl | hx'
        · exact absurd hxe hco
        · exact ⟨x, hx', hxe⟩
      obtain ⟨e, he⟩ := ih hrest
      cases hi : co.GetInlined with
      | none => exact ⟨e, by simp [BundleFinder.imagesObjectsLoop, hco, hi, he]⟩
      | some obj =>
        exact ⟨e, by
          simp [BundleFinder.imagesObjectsLoop, hco, hi, BundleFinder.findImagesInKubeObj, he]⟩

theorem imagesComponentsLoop_ok (b : BundleFinder) (l : List ClusterComponent)
    (images : List ComponentImage)
    (h : ∀ ca ∈ l, ca.GetName ≠ "" ∧ ∀ co ∈ ca.GetClusterObjects, co.GetName ≠ "") :
    b.imagesComponentsLoop l images = .ok images := by
  induction l with
  | nil => rfl
  | cons ca rest ih =>
    have hca := h ca (List.mem_cons_self _ _)
    have hrest := ih (fun x hx => h x (List.mem_cons_of_mem _ hx))
    simp [BundleFinder.imagesComponentsLoop, hca.1, imagesObjectsLoop_ok b _ _ images hca.2,
      hrest]

theorem imagesComponentsLoop_error (b : BundleFinder) (l : List ClusterComponent)
    (images : List ComponentImage)
    (h : ∃ ca ∈ l, ca.GetName = "" ∨ ∃ co ∈ ca.GetClusterObjects, co.GetName = "") :
    ∃ e, b.imagesComponentsLoop l images = .error e := by
  induction l with
  | nil => simp at h
  | cons ca rest ih =>
    by_cases hca : ca.GetName = ""
    · exact ⟨.emptyComponentName ca, by simp [BundleFinder.imagesComponentsLoop, hca]⟩
    · by_cases hobj : ∃ co ∈ ca.GetClusterObjects, co.GetName = ""
      · obtain ⟨e, he⟩ := imagesObjectsLoop_error b ca.GetName _ images hobj
        exact ⟨e, by simp [BundleFinder.imagesComponentsLoop, hca, he]⟩
      · have hall : ∀ co ∈ ca.GetClusterObjects, co.GetName ≠ "" :=
          fun co hco he => hobj ⟨co, hco, he⟩
        have hrest : ∃ ca ∈ rest, ca.GetName = "" ∨
            ∃ co ∈ ca.GetClusterObjects, co.GetName = "" := by
          obtain ⟨x, hx, hxe⟩ := h
          rcases List.mem_cons.mp hx with rfl | hx'
          · rcases hxe with h1 | h2
            · exact absurd h1 hca
            · exact absurd h2 hobj
          · exact ⟨x, hx', hxe⟩
        obtain ⟨e, he⟩ := ih hrest
        exact ⟨e, by
          simp [BundleFinder.imagesComponentsLoop, hca, imagesObjectsLoop_ok b _ _ images hall,
            he]⟩

end find

/-! ## Which error a failed construction returns -/

namespace find

open bpb

theorem nodeConfigsLoop_error_form {l : List NodeConfig} {m : GoMap String NodeConfig}
    {e : FinderError} (h : nodeConfigsLoop l m = .error e) :
    ∃ nc ∈ l, nc.GetName = "" ∧ e = .emptyNodeConfigName nc := by
  induction l generalizing m with
  | nil => simp [nodeConfigsLoop] at h
  | cons nc rest ih =>
    by_cases hn : nc.GetName = ""
    · simp only [nodeConfigsLoop, hn, if_true, Except.error.injEq] at h
      exact ⟨nc, List.mem_cons_self _ _, hn, h.symm⟩
    · simp only [nodeConfigsLoop, hn, if_false] at h
      obtain ⟨x, hx, hxe, he⟩ := ih h
      exact ⟨x, List.mem_cons_of_mem _ hx, hxe, he⟩

theorem clusterObjectsLoop_error_form {n : String} {l : List ClusterObject}
    {m : GoMap core.ClusterObjectKey ClusterObject} {e : FinderError}
    (h : clusterObjectsLoop n l m = .error e) :
    ∃ co ∈ l, co.GetName = "" ∧ e = .emptyObjectName co n := by
  induction l generalizing m with
  | nil => simp [clusterObjectsLoop] at h
  | cons co rest ih =>
    by_cases hn : co.GetName = ""
    · simp only [clusterObjectsLoop, hn, if_true, Except.error.injEq] at h
      exact ⟨co, List.mem_cons_self _ _, hn, h.symm⟩
    · simp only [clusterObjectsLoop, hn, if_false] at h
      obtain ⟨x, hx, hxe, he⟩ := ih h
      exact ⟨x, List.mem_cons_of_mem _ hx, hxe, he⟩

theorem componentsLoop_error_form {l : List ClusterComponent}
    {cm : GoMap String ClusterComponent} {om : GoMap core.ClusterObjectKey ClusterObject}
    {e : FinderError} (h : componentsLoop l cm om = .error e) :
    (∃ ca ∈ l, ca.GetName = "" ∧ e = .emptyComponentName ca) ∨
    (∃ ca ∈ l, ∃ co ∈ ca.GetClusterObjects,
      co.GetName = "" ∧ e = .emptyObjectName co ca.GetName) := by
  induction l generalizing cm om with
  | nil => simp [componentsLoop] at h
  | cons ca rest ih =>
    by_cases hn : ca.GetName = ""
    · simp only [componentsLoop, hn, if_true, Except.error.injEq] at h
      exact Or.inl ⟨ca, List.mem_cons_self _ _, hn, h.symm⟩
    · cases hobj : clusterObjectsLoop ca.GetName ca.GetClusterObjects om with
      | error e' =>
        simp only [componentsLoop, hn, if_false, hobj, Except.error.injEq] at h
        obtain ⟨co, hco, hce, he⟩ := clusterObjectsLoop_error_form hobj
        exact Or.inr ⟨ca, List.mem_cons_self _ _, co, hco, hce, h ▸ he⟩
      | ok om' =>
        simp only [componentsLoop, hn, if_false, hobj] at h
        rcases ih h with ⟨x, hx, hxe, he⟩ | ⟨x, hx, co, hco, hce, he⟩
        · exact Or.inl ⟨x, List.mem_cons_of_mem _ hx, hxe, he⟩
        · exact Or.inr ⟨x, List.mem_cons_of_mem _ hx, co, hco, hce, he⟩

theorem NewBundleFinder_error_form {b : Option ClusterBundle} {e : FinderError}
    (h : NewBundleFinder b = .error e) :
    (∃ nc ∈ nodeConfigsOf b, nc.GetName = "" ∧ e = .emptyNodeConfigName nc) ∨
    (∃ ca ∈ componentsOf b, ca.GetName = "" ∧ e = .emptyComponentName ca) ∨
    (∃ ca ∈ componentsOf b, ∃ co ∈ ca.GetClusterObjects,
      co.GetName = "" ∧ e = .emptyObjectName co ca.GetName) := by
  unfold NewBundleFinder converter.CloneBundle at h
  unfold nodeConfigsOf componentsOf
  cases h1 : nodeConfigsLoop (ClusterBundleSpec.GetNodeConfigs (ClusterBundle.GetSpec b))
      GoMap.empty with
  | error e1 =>
    simp only [h1, Except.error.injEq] at h
    exact Or.inl (h ▸ nodeConfigsLoop_error_form h1)
  | ok nm =>
    cases h2 : componentsLoop (ClusterBundleSpec.GetComponents (ClusterBundle.GetSpec b))
        GoMap.empty GoMap.empty with
    | error e2 =>
      simp only [h1, h2, Except.error.injEq] at h
      exact Or.inr (h ▸ componentsLoop_error_form h2)
    | ok r =>
      simp [h1, h2] at h

end find

/-! ## The finder: construction -/

namespace find

open bpb

/-- C1: `NewBundleFinder b` returns an error (no view) exactly when `b` has a
NodeConfig with the empty name, a Component with the empty name, or a Component
one of whose ClusterObjects has the empty name; in every other case, and only
then, it returns a view. -/
theorem NewBundleFinder_error_iff_empty_name (b : Option ClusterBundle) :
    ((∃ e, NewBundleFinder b = .error e) ↔
      ((∃ nc ∈ nodeConfigsOf b, nc.GetName = "") ∨
       (∃ ca ∈ componentsOf b, ca.GetName = "") ∨
       (∃ ca ∈ componentsOf b, ∃ co ∈ ca.GetClusterObjects, co.GetName = ""))) ∧
    ((∃ f, NewBundleFinder b = .ok f) ↔
      ¬ ((∃ nc ∈ nodeConfigsOf b, nc.GetName = "") ∨
         (∃ ca ∈ componentsOf b, ca.GetName = "") ∨
         (∃ ca ∈ componentsOf b, ∃ co ∈ ca.GetClusterObjects, co.GetName = ""))) := by
  have hiff := allNamesNonEmpty_iff b
  unfold HasEmptyName at hiff
  constructor
  · rw [NewBundleFinder_fails_iff, hiff, not_not]
  · rw [NewBundleFinder_succeeds_iff, hiff]

/-- C2: on a view built from `b`, `ClusterComponentObject c o` is absent exactly
when no Component of `b` named `c` has a ClusterObject named `o`; an object it
returns is named `o` and is a ClusterObject of a Component of `b` named `c`. -/
theorem ClusterComponentObject_found_iff (b : Option ClusterBundle) (f : BundleFinder)
    (h : NewBundleFinder b = .ok f) (c o : String) :
    (f.ClusterComponentObject c o = none ↔
      ¬ ∃ ca ∈ componentsOf b, ca.GetName = c ∧ ∃ co ∈ ca.GetClusterObjects, co.GetName = o) ∧
    (∀ co, f.ClusterComponentObject c o = some co →
      co.GetName = o ∧ ∃ ca ∈ componentsOf b, ca.GetName = c ∧ co ∈ ca.GetClusterObjects) := by
  obtain ⟨nm, cm, om, _, h2, rfl⟩ := (NewBundleFinder_ok_iff b f).mp h
  have hget := componentsLoop_getObj h2 c o
  simp only [GoMap.get_empty, Option.or_none] at hget
  simp only [BundleFinder.ClusterComponentObject]
  rw [hget]
  constructor
  · rw [lastWhere_eq_none_iff]
    constructor
    · rintro hall ⟨ca, hca, hc, co, hco, ho⟩
      have hmem : co ∈ ((componentsOf b).filter (fun ca => decide (ca.GetName = c))).flatMap
          ClusterComponent.GetClusterObjects :=
        List.mem_flatMap.mpr ⟨ca, List.mem_filter.mpr ⟨hca, by simp [hc]⟩, hco⟩
      have := hall co hmem
      simp [ho] at this
    · intro hno co hmem
      obtain ⟨ca, hca, hco⟩ := List.mem_flatMap.mp hmem
      obtain ⟨hca1, hca2⟩ := List.mem_filter.mp hca
      by_contra hne
      exact hno ⟨ca, hca1, by simpa using hca2, co, hco, by simpa using hne⟩
  · intro co hco
    obtain ⟨hmem, hp⟩ := lastWhere_some hco
    obtain ⟨ca, hca, hin⟩ := List.mem_flatMap.mp hmem
    obtain ⟨hca1, hca2⟩ := List.mem_filter.mp hca
    exact ⟨by simpa using hp, ca, hca1, by simpa using hca2, hin⟩

/-- C2, at `duplicateBundle`: the object name `o` occurs under `A` and under
`B`, and each lookup returns the object of the component asked for. -/
theorem ClusterComponentObject_found_iff_witness :
    NewBundleFinder duplicateBundle = .ok duplicateFinder ∧
    duplicateFinder.ClusterComponentObject "A" "o" = some ⟨"o", none, 0⟩ ∧
    duplicateFinder.ClusterComponentObject "B" "o" = some ⟨"o", none, 1⟩ ∧
    duplicateFinder.ClusterComponentObject "B" "p" = none ∧
    ((duplicateFinder.ClusterComponentObject "B" "o" = none ↔
      ¬ ∃ ca ∈ componentsOf duplicateBundle, ca.GetName = "B" ∧
        ∃ co ∈ ca.GetClusterObjects, co.GetName = "o") ∧
     (∀ co, duplicateFinder.ClusterComponentObject "B" "o" = some co →
      co.GetName = "o" ∧ ∃ ca ∈ componentsOf duplicateBundle, ca.GetName = "B" ∧
        co ∈ ca.GetClusterObjects)) :=
  ⟨rfl, by decide, by decide, by decide,
    ClusterComponentObject_found_iff duplicateBundle duplicateFinder rfl "B" "o"⟩

/-- C3: on a view built from `b`, `ClusterComponent name` is the last Component
of `b` named `name` and `NodeConfig name` the last NodeConfig of `b` named
`name`, each absent exactly when `b` has no entry of that name. -/
theorem lookups_return_last_of_name (b : Option ClusterBundle) (f : BundleFinder)
    (h : NewBundleFinder b = .ok f) (name : String) :
    f.ClusterComponent name =
        ((componentsOf b).filter (fun ca => decide (ca.GetName = name))).getLast? ∧
    (f.ClusterComponent name = none ↔ ∀ ca ∈ componentsOf b, ca.GetName ≠ name) ∧
    f.NodeConfig name =
        ((nodeConfigsOf b).filter (fun nc => decide (nc.GetName = name))).getLast? ∧
    (f.NodeConfig name = none ↔ ∀ nc ∈ nodeConfigsOf b, nc.GetName ≠ name) := by
  obtain ⟨nm, cm, om, h1, h2, rfl⟩ := (NewBundleFinder_ok_iff b f).mp h
  have hc := componentsLoop_getComp h2 name
  have hn := nodeConfigsLoop_get h1 name
  simp only [GoMap.get_empty, Option.or_none] at hc hn
  simp only [BundleFinder.ClusterComponent, BundleFinder.NodeConfig]
  refine ⟨hc, ?_, hn, ?_⟩
  · rw [hc, lastWhere_eq_none_iff]
    simp
  · rw [hn, lastWhere_eq_none_iff]
    simp

/-- C3, at `duplicateBundle`: construction succeeds although `n1` and `A` each
name two entries, and the lookups return the later ones. -/
theorem lookups_return_last_of_name_witness :
    NewBundleFinder duplicateBundle = .ok duplicateFinder ∧
    duplicateFinder.ClusterComponent "A" = some ⟨"A", [⟨"p", none, 2⟩], 2⟩ ∧
    duplicateFinder.NodeConfig "n1" = some ⟨"n1", 1⟩ ∧
    (duplicateFinder.ClusterComponent "A" =
        ((componentsOf duplicateBundle).filter (fun ca => decide (ca.GetName = "A"))).getLast? ∧
     (duplicateFinder.ClusterComponent "A" = none ↔
        ∀ ca ∈ componentsOf duplicateBundle, ca.GetName ≠ "A") ∧
     duplicateFinder.NodeConfig "A" =
        ((nodeConfigsOf duplicateBundle).filter (fun nc => decide (nc.GetName = "A"))).getLast? ∧
     (duplicateFinder.NodeConfig "A" = none ↔
        ∀ nc ∈ nodeConfigsOf duplicateBundle, nc.GetName ≠ "A")) :=
  ⟨rfl, by decide, by decide,
    lookups_return_last_of_name duplicateBundle duplicateFinder rfl "A"⟩

end find

/-! ## The finder: duplicate names, empty object names, images -/

namespace find

open bpb

/-- C4, refuted at `duplicateBundle`: two NodeConfigs are named `n1` and two
Components are named `A`, yet `NewBundleFinder` returns a view. -/
theorem duplicate_names_not_rejected :
    ¬ ((nodeConfigsOf duplicateBundle).map NodeConfig.GetName).Nodup ∧
    ¬ ((componentsOf duplicateBundle).map ClusterComponent.GetName).Nodup ∧
    NewBundleFinder duplicateBundle = .ok duplicateFinder :=
  ⟨by decide, by decide, rfl⟩

/-- C4 as amended: a bundle in which two NodeConfigs, two Components or two
ClusterObjects of one Component share a name is rejected exactly when some
NodeConfig, Component or ClusterObject name is empty, and otherwise yields a
view; the bundle behind a view has non-empty names at each level. -/
theorem duplicate_names_rejected_iff_empty_name (b : Option ClusterBundle)
    (_hdup : HasDuplicateName b) :
    ((∃ e, NewBundleFinder b = .error e) ↔ HasEmptyName b) ∧
    ((∃ f, NewBundleFinder b = .ok f) ↔ ¬ HasEmptyName b) ∧
    (∀ f, NewBundleFinder b = .ok f → f.bundle = b ∧ AllNamesNonEmpty b) := by
  refine ⟨?_, ?_, ?_⟩
  · rw [NewBundleFinder_fails_iff, allNamesNonEmpty_iff, not_not]
  · rw [NewBundleFinder_succeeds_iff, allNamesNonEmpty_iff]
  · intro f hf
    obtain ⟨nm, cm, om, _, _, rfl⟩ := (NewBundleFinder_ok_iff b f).mp hf
    exact ⟨rfl, (NewBundleFinder_succeeds_iff b).mp ⟨_, hf⟩⟩

/-- C4 as amended, at `duplicateBundle`. -/
theorem duplicate_names_rejected_iff_empty_name_witness :
    HasDuplicateName duplicateBundle ∧
    ((∃ e, NewBundleFinder duplicateBundle = .error e) ↔ HasEmptyName duplicateBundle) ∧
    ((∃ f, NewBundleFinder duplicateBundle = .ok f) ↔ ¬ HasEmptyName duplicateBundle) ∧
    (∀ f, NewBundleFinder duplicateBundle = .ok f →
      f.bundle = duplicateBundle ∧ AllNamesNonEmpty duplicateBundle) :=
  ⟨by decide, duplicate_names_rejected_iff_empty_name duplicateBundle (by decide)⟩

/-- C5, refuted at `emptyObjectNameBundle`: its NodeConfig and Component names
are non-empty and the sole ClusterObject of `c1` has the empty name, and
`NewBundleFinder` returns the empty-object-name error instead of a view. -/
theorem empty_object_name_fails_construction :
    (∀ nc ∈ nodeConfigsOf emptyObjectNameBundle, nc.GetName ≠ "") ∧
    (∀ ca ∈ componentsOf emptyObjectNameBundle, ca.GetName ≠ "") ∧
    (∃ ca ∈ componentsOf emptyObjectNameBundle,
      ∃ co, ca.GetClusterObjects = [co] ∧ co.GetName = "") ∧
    NewBundleFinder emptyObjectNameBundle = .error (.emptyObjectName ⟨"", none, 0⟩ "c1") :=
  ⟨by decide, by decide, ⟨⟨"c1", [⟨"", none, 0⟩], 0⟩, by decide, ⟨"", none, 0⟩, rfl, rfl⟩, rfl⟩

/-- C5 as amended: for a bundle whose NodeConfig and Component names are all
non-empty and which has a Component whose sole ClusterObject has the empty
name, `NewBundleFinder` returns no view but the error of an empty-named
ClusterObject; `ComponentImages` on a view over such a bundle returns an
error. -/
theorem empty_object_name_rejected (b : Option ClusterBundle)
    (hn : ∀ nc ∈ nodeConfigsOf b, nc.GetName ≠ "")
    (hc : ∀ ca ∈ componentsOf b, ca.GetName ≠ "")
    (ho : ∃ ca ∈ componentsOf b, ∃ co, ca.GetClusterObjects = [co] ∧ co.GetName = "") :
    (∃ co compName, co.GetName = "" ∧
      NewBundleFinder b = .error (.emptyObjectName co compName)) ∧
    (∀ f : BundleFinder, f.bundle = b → ∃ e, f.ComponentImages = .error e) := by
  obtain ⟨ca, hca, co, hobjs, hco⟩ := ho
  have hmem : co ∈ ca.GetClusterObjects := by simp [hobjs]
  constructor
  · have hfail : ∃ e, NewBundleFinder b = .error e := by
      rw [NewBundleFinder_fails_iff]
      intro hall
      exact (hall.2 ca hca).2 co hmem hco
    obtain ⟨e, he⟩ := hfail
    rcases NewBundleFinder_error_form he with ⟨nc, hnc, hne, _⟩ | ⟨x, hx, hxe, _⟩ |
      ⟨x, _, y, _, hye, hform⟩
    · exact absurd hne (hn nc hnc)
    · exact absurd hxe (hc x hx)
    · exact ⟨y, x.GetName, hye, hform ▸ he⟩
  · intro f hf
    unfold BundleFinder.ComponentImages
    rw [hf]
    exact imagesComponentsLoop_error f _ [] ⟨ca, hca, Or.inr ⟨co, hmem, hco⟩⟩

/-- C5 as amended, at `emptyObjectNameBundle`. -/
theorem empty_object_name_rejected_witness :
    ((∀ nc ∈ nodeConfigsOf emptyObjectNameBundle, nc.GetName ≠ "") ∧
     (∀ ca ∈ componentsOf emptyObjectNameBundle, ca.GetName ≠ "")) ∧
    (∃ co compName, co.GetName = "" ∧
      NewBundleFinder emptyObjectNameBundle = .error (.emptyObjectName co compName)) ∧
    (∀ f : BundleFinder, f.bundle = emptyObjectNameBundle →
      ∃ e, f.ComponentImages = .error e) :=
  ⟨⟨by decide, by decide⟩,
    empty_object_name_rejected emptyObjectNameBundle (by decide) (by decide)
      ⟨⟨"c1", [⟨"", none, 0⟩], 0⟩, by decide, ⟨"", none, 0⟩, rfl, rfl⟩⟩

/-- C9: on a view built by `NewBundleFinder`, `ComponentImages` succeeds and
returns the empty sequence, with or without inlined payloads. -/
theorem ComponentImages_empty (b : Option ClusterBundle) (f : BundleFinder)
    (h : NewBundleFinder b = .ok f) : f.ComponentImages = .ok [] := by
  have hall := (NewBundleFinder_succeeds_iff b).mp ⟨f, h⟩
  obtain ⟨nm, cm, om, _, _, rfl⟩ := (NewBundleFinder_ok_iff b f).mp h
  exact imagesComponentsLoop_ok _ _ [] hall.2

/-- C9, at `exampleBundle`, whose object `o1` carries an inlined payload. -/
theorem ComponentImages_empty_witness :
    (∃ ca ∈ componentsOf exampleBundle, ∃ co ∈ ca.GetClusterObjects, co.GetInlined ≠ none) ∧
    NewBundleFinder exampleBundle = .ok exampleFinder ∧
    exampleFinder.ComponentImages = .ok [] :=
  ⟨by decide, rfl, ComponentImages_empty exampleBundle exampleFinder rfl⟩

/-- C10: when the Component names of `b` are pairwise distinct, an object that
`ClusterComponentObject c o` returns on a view built from `b` is one of the
ClusterObjects of the Component that `ClusterComponent c` returns. -/
theorem object_lookup_within_component_lookup (b : Option ClusterBundle) (f : BundleFinder)
    (hdistinct : ((componentsOf b).map ClusterComponent.GetName).Nodup)
    (h : NewBundleFinder b = .ok f) (c o : String) (co : ClusterObject)
    (hco : f.ClusterComponentObject c o = some co) :
    ∃ ca, f.ClusterComponent c = some ca ∧ co ∈ ca.GetClusterObjects := by
  obtain ⟨nm, cm, om, _, h2, rfl⟩ := (NewBundleFinder_ok_iff b f).mp h
  have hobj := componentsLoop_getObj h2 c o
  have hcomp := componentsLoop_getComp h2 c
  simp only [GoMap.get_empty, Option.or_none] at hobj hcomp
  simp only [BundleFinder.ClusterComponentObject] at hco
  simp only [BundleFinder.ClusterComponent]
  rw [hobj] at hco
  obtain ⟨hmem, _⟩ := lastWhere_some hco
  obtain ⟨ca, hca, hin⟩ := List.mem_flatMap.mp hmem
  obtain ⟨hca1, hca2⟩ := List.mem_filter.mp hca
  refine ⟨ca, ?_, hin⟩
  rw [hcomp]
  refine lastWhere_of_unique hca1 hca2 (fun y hy hyp => ?_)
  have hname : y.GetName = ca.GetName := by
    have h1 : y.GetName = c := by simpa using hyp
    have h2 : ca.GetName = c := by simpa using hca2
    rw [h1, h2]
  exact List.inj_on_of_nodup_map hdistinct hy hca1 hname

/-- C10, at `exampleBundle`. -/
theorem object_lookup_within_component_lookup_witness :
    ((componentsOf exampleBundle).map ClusterComponent.GetName).Nodup ∧
    NewBundleFinder exampleBundle = .ok exampleFinder ∧
    exampleFinder.ClusterComponentObject "c1" "o1" =
      some ⟨"o1", some ⟨.cons "kind" (.stringValue "Pod") .nil⟩, 0⟩ ∧
    ∃ ca, exampleFinder.ClusterComponent "c1" = some ca ∧
      (⟨"o1", some ⟨.cons "kind" (.stringValue "Pod") .nil⟩, 0⟩ : ClusterObject) ∈
        ca.GetClusterObjects :=
  ⟨by decide, rfl, by decide,
    object_lookup_within_component_lookup exampleBundle exampleFinder (by decide) rfl "c1" "o1"
      ⟨"o1", some ⟨.cons "kind" (.stringValue "Pod") .nil⟩, 0⟩ (by decide)⟩

/-- Without distinct Component names the two tables can disagree: in the view
over `duplicateBundle` the object table still holds object `o` of the first
Component named `A`, while the component table holds the last Component named
`A`, which has no such object. -/
theorem object_table_merges_same_named_components :
    NewBundleFinder duplicateBundle = .ok duplicateFinder ∧
    duplicateFinder.ClusterComponentObject "A" "o" = some ⟨"o", none, 0⟩ ∧
    ¬ ∃ ca, duplicateFinder.ClusterComponent "A" = some ca ∧
      (⟨"o", none, 0⟩ : ClusterObject) ∈ ca.GetClusterObjects := by
  refine ⟨rfl, by decide, ?_⟩
  rintro ⟨ca, hca, hmem⟩
  have hca2 : duplicateFinder.ClusterComponent "A" = some ⟨"A", [⟨"p", none, 2⟩], 2⟩ := by
    decide
  rw [hca2] at hca
  cases hca
  revert hmem
  decide

end find

/-! ## The converter -/

namespace converter

variable {M : Type}

/-- C8: `YAMLToProto` is the JSON pivot: it returns the error of the
YAML-to-JSON conversion when that fails, and otherwise the result of
`JSONToProto` on the converted JSON; `ProtoToYAML` returns the error of
`ProtoToJSON` when that fails, and otherwise the JSON-to-YAML conversion of its
bytes.  Both agree with the pivots as the spec words them. -/
theorem YAML_conversions_pivot_through_JSON (lib : Codecs M) (b : Converter M) :
    (∀ contents, b.YAMLToProto lib contents = fromYAMLPivot lib b contents) ∧
    (∀ contents err, lib.YAMLToJSON contents = .error err →
      b.YAMLToProto lib contents = .error err) ∧
    (∀ contents js, lib.YAMLToJSON contents = .ok js →
      b.YAMLToProto lib contents = b.JSONToProto lib js) ∧
    (∀ v, b.ProtoToYAML lib v = toYAMLPivot lib b v) ∧
    (∀ v err, b.ProtoToJSON lib v = .error err → b.ProtoToYAML lib v = .error err) ∧
    (∀ v buf, b.ProtoToJSON lib v = .ok buf → b.ProtoToYAML lib v = lib.JSONToYAML buf) := by
  refine ⟨?_, ?_, ?_, ?_, ?_, ?_⟩
  · intro contents
    unfold Converter.YAMLToProto fromYAMLPivot
    cases lib.YAMLToJSON contents <;> rfl
  · intro contents err h
    simp [Converter.YAMLToProto, h]
  · intro contents js h
    simp [Converter.YAMLToProto, h]
  · intro v
    unfold Converter.ProtoToYAML ProtoToYAML toYAMLPivot Converter.ProtoToJSON
    cases ProtoToJSON lib v <;> rfl
  · intro v err h
    simp only [Converter.ProtoToJSON] at h
    simp [Converter.ProtoToYAML, ProtoToYAML, h]
  · intro v buf h
    simp only [Converter.ProtoToJSON] at h
    simp [Converter.ProtoToYAML, ProtoToYAML, h]

/-- C8, on `toyCodecs`: an input that is not YAML fails with the YAML error, a
YAML document decodes to what its JSON decodes to, and a message whose JSON
marshaling fails has no YAML form. -/
theorem YAML_conversions_pivot_through_JSON_witness :
    Converter.YAMLToProto toyCodecs ⟨0⟩ [] = .error "yaml" ∧
    Converter.YAMLToProto toyCodecs ⟨0⟩ [35, 7] = Converter.JSONToProto toyCodecs ⟨0⟩ [7] ∧
    Converter.ProtoToYAML toyCodecs ⟨0⟩ 0 = .error "marshal" ∧
    Converter.ProtoToYAML toyCodecs ⟨0⟩ 7 = .ok [35, 7] :=
  ⟨(YAML_conversions_pivot_through_JSON toyCodecs ⟨0⟩).2.1 [] "yaml" rfl,
   (YAML_conversions_pivot_through_JSON toyCodecs ⟨0⟩).2.2.1 [35, 7] [7] rfl,
   (YAML_conversions_pivot_through_JSON toyCodecs ⟨0⟩).2.2.2.2.1 0 "marshal" rfl,
   ((YAML_conversions_pivot_through_JSON toyCodecs ⟨0⟩).2.2.2.2.2 7 [7] rfl).trans rfl⟩

end converter
